import Mathlib

/-!
Verification of the JT345 strategy-backtesting core against its design
specification.  The development shallowly embeds the Python sources
`config/core_rules.py` and `releases/core/backtest_engine.py`:
prices and capital amounts are modelled as exact rationals, timestamps as
integers, and the duck-typed strategy-rule dictionary as a structure with
optional fields mirroring `dict.get` defaults.  Entry and exit conditions
are embedded in their callable variant (a predicate over the current candle
and the trailing window); the declarative dictionary variant of
`_check_entry_conditions` / `_check_exit_conditions` is not needed by any
property proved here.  The real-valued statistics `max_drawdown_percent`,
`sharpe_ratio` and `avg_trade_duration_hours` (which involve square roots
and wall-clock durations) are likewise outside the properties below and are
omitted from the embedded results record.
-/

namespace JT345

/-! ## config/core_rules.py -/

/-- `MAX_RISK_PERCENT = 0.01` : 1% of capital per trade, hard limit. -/
def MAX_RISK_PERCENT : ℚ := 1 / 100

/-- `MIN_POSITION_SIZE = 10` : minimum position size in USD. -/
def MIN_POSITION_SIZE : ℚ := 10

/-- Embedding of `calculate_position_size(capital, risk_percent=None)`:
the `None` default becomes `Option.getD MAX_RISK_PERCENT`, the requested
risk is clamped to the hard cap, multiplied by capital, and the result is
floored at the minimum position size. -/
def calculate_position_size (capital : ℚ) (risk_percent : Option ℚ) : ℚ :=
  let r := risk_percent.getD MAX_RISK_PERCENT
  let r := min r MAX_RISK_PERCENT
  let position_size := capital * r
  max position_size MIN_POSITION_SIZE

/-! ## Candles and `BacktestEngine.load_data` -/

/-- One OHLCV sample.  The field `open` of the source is spelled `open_`
because `open` is a Lean keyword. -/
structure Candle where
  timestamp : Int
  open_ : ℚ
  high : ℚ
  low : ℚ
  close : ℚ
  volume : ℚ
  deriving DecidableEq, Repr

instance : Inhabited Candle := ⟨⟨0, 0, 0, 0, 0, 0⟩⟩

/-- Ordering of candles by timestamp, the key of `sort_values('timestamp')`. -/
def tsLE (a b : Candle) : Prop := a.timestamp ≤ b.timestamp

instance : DecidableRel tsLE := fun a b => inferInstanceAs (Decidable (a.timestamp ≤ b.timestamp))

instance : IsTotal Candle tsLE := ⟨fun a b => Int.le_total a.timestamp b.timestamp⟩

instance : IsTrans Candle tsLE := ⟨fun _ _ _ h h2 => le_trans h h2⟩

/-- `required_columns` of `load_data`. -/
def required_columns : List String :=
  ["timestamp", "open", "high", "low", "close", "volume"]

/-- Embedding of `BacktestEngine.load_data(data)`.  The input frame is a
column list together with its rows.  The method returns `False` when a
required column is missing; otherwise it sorts the rows by timestamp,
stores them and returns `True`.  `none` models the `False` return (nothing
ingested), `some rows` models `True` with `self.data` set to the sorted
rows. -/
def load_data (columns : List String) (rows : List Candle) : Option (List Candle) :=
  if required_columns.all (fun c => columns.contains c) then
    some (List.insertionSort tsLE rows)
  else
    none

/-! ## The `Trade` entity -/

/-- Embedding of class `Trade`.  `duration` (computed from pandas
timestamps in hours) is not needed by any property here and is omitted. -/
structure Trade where
  entry_time : Int
  entry_price : ℚ
  position_size : ℚ
  direction : String
  exit_time : Option Int
  exit_price : Option ℚ
  profit : ℚ
  profit_percent : ℚ
  closed : Bool
  deriving DecidableEq, Repr

/-- `Trade.__init__`: a freshly opened trade. -/
def Trade.new (entry_time : Int) (entry_price position_size : ℚ)
    (direction : String) : Trade :=
  { entry_time, entry_price, position_size, direction,
    exit_time := none, exit_price := none,
    profit := 0, profit_percent := 0, closed := false }

/-- Embedding of `Trade.close(exit_time, exit_price)`: records the exit and
computes profit and profit percent, sign-flipped for a direction other than
`long`. -/
def Trade.close (t : Trade) (exit_time : Int) (exit_price : ℚ) : Trade :=
  let profit :=
    if t.direction = "long" then (exit_price - t.entry_price) * t.position_size
    else (t.entry_price - exit_price) * t.position_size
  let profit_percent :=
    if t.direction = "long" then (exit_price - t.entry_price) / t.entry_price * 100
    else (t.entry_price - exit_price) / t.entry_price * 100
  { t with exit_time := some exit_time, exit_price := some exit_price,
           closed := true, profit := profit, profit_percent := profit_percent }

/-! ## Engine state and strategy rules -/

/-- The mutable fields of `BacktestEngine` touched by a run. -/
structure EngineState where
  initial_capital : ℚ
  capital : ℚ
  trades : List Trade
  equity_curve : List ℚ
  current_position : Option Trade
  deriving DecidableEq, Repr

/-- The `strategy_rules` dictionary.  Absent keys are `none`; the run reads
them with the same defaults as the `dict.get` calls of `execute_strategy`.
Conditions are the callable variant. -/
structure StrategyRules where
  name : Option String
  entry_conditions : Candle → List Candle → Bool
  exit_conditions : Candle → List Candle → Bool
  position_size_percent : Option ℚ
  stop_loss_percent : Option ℚ
  take_profit_percent : Option ℚ
  direction : Option String

/-- The per-run parameters extracted at the top of `execute_strategy` by
`strategy_rules.get(key, default)`. -/
structure RunConfig where
  entry_conditions : Candle → List Candle → Bool
  exit_conditions : Candle → List Candle → Bool
  position_size_percent : ℚ
  stop_loss_percent : ℚ
  take_profit_percent : ℚ
  direction : String

/-- The `get` calls of `execute_strategy` lines 110-113:
`position_size_percent` defaults to 10, `stop_loss_percent` to 2,
`take_profit_percent` to 5 and `direction` to `long`. -/
def StrategyRules.toConfig (r : StrategyRules) : RunConfig :=
  { entry_conditions := r.entry_conditions,
    exit_conditions := r.exit_conditions,
    position_size_percent := r.position_size_percent.getD 10,
    stop_loss_percent := r.stop_loss_percent.getD 2,
    take_profit_percent := r.take_profit_percent.getD 5,
    direction := r.direction.getD "long" }

/-- `__init__` state reset by `execute_strategy` lines 104-107: capital back
to the initial capital, no trades, the equity curve seeded with the initial
capital, no open position. -/
def resetState (initial_capital : ℚ) : EngineState :=
  { initial_capital, capital := initial_capital, trades := [],
    equity_curve := [initial_capital], current_position := none }

/-- Embedding of `BacktestEngine._open_position`: position size is
`capital * position_size_percent / 100 / price`; the new trade becomes the
current position. -/
def open_position (st : EngineState) (timestamp : Int) (price : ℚ)
    (position_size_percent : ℚ) (direction : String) : EngineState :=
  let position_size := st.capital * position_size_percent / 100 / price
  { st with current_position := some (Trade.new timestamp price position_size direction) }

/-- Embedding of `BacktestEngine._close_position`: when a position is open,
close it, add its profit to the capital, append it to the trade history and
clear the current position; otherwise do nothing. -/
def close_position (st : EngineState) (timestamp : Int) (price : ℚ) : EngineState :=
  match st.current_position with
  | none => st
  | some pos =>
    let t := pos.close timestamp price
    { st with capital := st.capital + t.profit,
              trades := st.trades ++ [t],
              current_position := none }

/-- The equity-curve update of `execute_strategy` lines 146-152: realized
capital plus the unrealized PnL of an open position, computed with the long
formula `(close - entry_price) * position_size` for either direction. -/
def append_equity (st : EngineState) (current : Candle) : EngineState :=
  let unrealized :=
    match st.current_position with
    | some pos => (current.close - pos.entry_price) * pos.position_size
    | none => 0
  { st with equity_curve := st.equity_curve ++ [st.capital + unrealized] }

/-- The body of the per-candle loop of `execute_strategy` (lines 116-152)
for one candle.  With an open position: the stop-loss and take-profit
levels are checked only when the configured direction is `long` (the source
guard `if direction == 'long'`), then the exit condition; every close is
followed by `continue`, so a closing candle appends nothing to the equity
curve.  With no position open: the entry condition may open one, and the
equity curve is appended in either case. -/
def stepCandle (cfg : RunConfig) (st : EngineState) (current : Candle)
    (prev : List Candle) : EngineState :=
  match st.current_position with
  | some pos =>
    if cfg.direction = "long" ∧
        current.low ≤ pos.entry_price * (1 - cfg.stop_loss_percent / 100) then
      close_position st current.timestamp
        (pos.entry_price * (1 - cfg.stop_loss_percent / 100))
    else if cfg.direction = "long" ∧
        current.high ≥ pos.entry_price * (1 + cfg.take_profit_percent / 100) then
      close_position st current.timestamp
        (pos.entry_price * (1 + cfg.take_profit_percent / 100))
    else if cfg.exit_conditions current prev then
      close_position st current.timestamp current.close
    else
      append_equity st current
  | none =>
    if cfg.entry_conditions current prev then
      append_equity
        (open_position st current.timestamp current.close
          cfg.position_size_percent cfg.direction) current
    else
      append_equity st current

/-- `self.data.iloc[max(0, i-50):i]`, the trailing window of at most 50
candles strictly before index `i`. -/
def windowAt (data : List Candle) (i : Nat) : List Candle :=
  (data.take i).drop (i - 50)

/-- One loop iteration at index `i`. -/
def stepAt (cfg : RunConfig) (data : List Candle) (st : EngineState) (i : Nat) :
    EngineState :=
  stepCandle cfg st (data.getD i default) (windowAt data i)

/-- The indices `range(1, len(data))` of the simulation loop. -/
def loopIndices (n : Nat) : List Nat := List.range' 1 (n - 1)

/-- The per-candle loop of `execute_strategy`. -/
def runLoop (cfg : RunConfig) (data : List Candle) (st : EngineState) : EngineState :=
  (loopIndices data.length).foldl (stepAt cfg data) st

/-- Lines 154-157: close any position still open at the last candle close. -/
def finalClose (data : List Candle) (st : EngineState) : EngineState :=
  match st.current_position, data.getLast? with
  | some _, some last => close_position st last.timestamp last.close
  | _, _ => st

/-- The full engine state reached by `execute_strategy`: reset, loop over
candles 1..N-1, then forced closure. -/
def runState (initial_capital : ℚ) (data : List Candle) (rules : StrategyRules) :
    EngineState :=
  finalClose data (runLoop rules.toConfig data (resetState initial_capital))

/-! ## `_calculate_results` and `execute_strategy` -/

/-- The results dictionary of `_calculate_results` (the real-valued
statistics `max_drawdown_percent`, `sharpe_ratio` and
`avg_trade_duration_hours` omitted, see the file header). -/
structure BacktestResults where
  total_trades : Nat
  winning_trades : Nat
  losing_trades : Nat
  win_rate : ℚ
  total_profit : ℚ
  total_return_percent : ℚ
  initial_capital : ℚ
  final_capital : ℚ
  avg_win : ℚ
  avg_loss : ℚ
  profit_factor : ℚ
  equity_curve : List ℚ
  trades : List Trade
  profitable : Bool
  deriving DecidableEq, Repr

/-- `[t for t in self.trades if t.profit > 0]`. -/
def winningOf (ts : List Trade) : List Trade := ts.filter (fun t => 0 < t.profit)

/-- `[t for t in self.trades if t.profit <= 0]`. -/
def losingOf (ts : List Trade) : List Trade := ts.filter (fun t => t.profit ≤ 0)

/-- `np.mean([t.profit for t in winning_trades]) if winning_trades else 0`. -/
def avgProfit (ts : List Trade) : ℚ :=
  if ts.isEmpty then 0 else (ts.map Trade.profit).sum / ts.length

/-- The record built by `_calculate_results` lines 238-283 from the final
engine state (reached only when at least one trade exists). -/
def mkResults (st : EngineState) : BacktestResults :=
  let total_trades := st.trades.length
  let winning := winningOf st.trades
  let losing := losingOf st.trades
  let win_rate := if 0 < total_trades then (winning.length : ℚ) / total_trades * 100 else 0
  let total_profit := (st.trades.map Trade.profit).sum
  let total_return := (st.capital - st.initial_capital) / st.initial_capital * 100
  let avg_win := avgProfit winning
  let avg_loss := avgProfit losing
  { total_trades,
    winning_trades := winning.length,
    losing_trades := losing.length,
    win_rate,
    total_profit,
    total_return_percent := total_return,
    initial_capital := st.initial_capital,
    final_capital := st.capital,
    avg_win,
    avg_loss,
    profit_factor := if avg_loss ≠ 0 then |avg_win / avg_loss| else 0,
    equity_curve := st.equity_curve,
    trades := st.trades,
    profitable := decide (0 < total_profit) }

/-- Embedding of `_calculate_results`: the empty-trade-history guard of
lines 232-236 returns the error dictionary, otherwise the metrics record. -/
def calculate_results (st : EngineState) : Except String BacktestResults :=
  if st.trades.isEmpty then Except.error "No trades executed"
  else Except.ok (mkResults st)

/-- Embedding of `BacktestEngine.execute_strategy(strategy_rules)`: the
empty-data guard of lines 97-99 (`self.data is None or len(self.data) == 0`)
returns the `No data loaded` error dictionary; otherwise the state is
reset, the loop runs, a still-open position is force-closed, and
`_calculate_results` produces the report. -/
def execute_strategy (initial_capital : ℚ) (data : List Candle)
    (rules : StrategyRules) : Except String BacktestResults :=
  if data.length = 0 then Except.error "No data loaded"
  else calculate_results (runState initial_capital data rules)

/-! ## Ghost observers of the loop

These functions do not alter the embedded engine; they count, along the
very same iteration order, how often a step takes an opening or a closing
branch.  They exist only to state the bookkeeping invariants. -/

/-- `true` exactly when `stepCandle` takes one of the three closing
branches for this state and candle. -/
def stepCloses (cfg : RunConfig) (st : EngineState) (current : Candle)
    (prev : List Candle) : Bool :=
  match st.current_position with
  | some pos =>
    if cfg.direction = "long" ∧
        current.low ≤ pos.entry_price * (1 - cfg.stop_loss_percent / 100) then true
    else if cfg.direction = "long" ∧
        current.high ≥ pos.entry_price * (1 + cfg.take_profit_percent / 100) then true
    else cfg.exit_conditions current prev
  | none => false

/-- `true` exactly when `stepCandle` opens a position for this state and
candle. -/
def stepOpens (cfg : RunConfig) (st : EngineState) (current : Candle)
    (prev : List Candle) : Bool :=
  match st.current_position with
  | some _ => false
  | none => cfg.entry_conditions current prev

/-- Number of closing steps taken by the loop over the given indices,
threading the engine state exactly as the loop does. -/
def loopCloses (cfg : RunConfig) (data : List Candle) :
    EngineState → List Nat → Nat
  | _, [] => 0
  | st, i :: is =>
    (if stepCloses cfg st (data.getD i default) (windowAt data i) then 1 else 0)
      + loopCloses cfg data (stepAt cfg data st i) is

/-- Number of opening steps taken by the loop over the given indices. -/
def loopOpens (cfg : RunConfig) (data : List Candle) :
    EngineState → List Nat → Nat
  | _, [] => 0
  | st, i :: is =>
    (if stepOpens cfg st (data.getD i default) (windowAt data i) then 1 else 0)
      + loopOpens cfg data (stepAt cfg data st i) is

/-- Number of positions opened during a whole run. -/
def runOpens (initial_capital : ℚ) (data : List Candle) (rules : StrategyRules) : Nat :=
  loopOpens rules.toConfig data (resetState initial_capital) (loopIndices data.length)

/-- `1` when a position is open, `0` otherwise. -/
def posCount (st : EngineState) : Nat := if st.current_position.isSome then 1 else 0

/-! ## Concrete inputs used by the scenario claims -/

/-- An entry or exit condition that always holds. -/
def alwaysCond : Candle → List Candle → Bool := fun _ _ => true

/-- An entry or exit condition that never holds. -/
def neverCond : Candle → List Candle → Bool := fun _ _ => false

/-- The two-candle series of the spec scenario (§8):
(t0, o100 h105 l95 c100), (t1, o100 h102 l90 c92). -/
def scenarioData : List Candle :=
  [⟨0, 100, 105, 95, 100, 0⟩, ⟨1, 100, 102, 90, 92, 0⟩]

/-- The spec-scenario rules: LONG, stop loss 1%, take profit 2%, entry
always true, no exit condition. -/
def scenarioRules : StrategyRules :=
  { name := none, entry_conditions := alwaysCond, exit_conditions := neverCond,
    position_size_percent := none, stop_loss_percent := some 1,
    take_profit_percent := some 2, direction := some "long" }

/-- A three-candle LONG series whose third candle touches the stop-loss
level: entry at close 100 on candle 1, stop level 99, candle 2 low 90. -/
def stopRunData : List Candle :=
  [⟨0, 100, 105, 95, 100, 0⟩, ⟨1, 100, 102, 99, 100, 0⟩, ⟨2, 100, 101, 90, 95, 0⟩]

/-- A three-candle SHORT series whose third candle touches the short
stop-loss level: entry at close 100 on candle 1, stop level 101, candle 2
high 110, close 105. -/
def shortRunData : List Candle :=
  [⟨0, 100, 100, 100, 100, 0⟩, ⟨1, 100, 100, 100, 100, 0⟩, ⟨2, 105, 110, 100, 105, 0⟩]

/-- The SHORT variant of the scenario rules. -/
def shortRules : StrategyRules :=
  { scenarioRules with direction := some "short" }

/-- A three-candle LONG series whose third candle reaches the take-profit
level 102 (high 103), yielding a single winning trade. -/
def winRunData : List Candle :=
  [⟨0, 100, 105, 95, 100, 0⟩, ⟨1, 100, 102, 99.5, 100, 0⟩, ⟨2, 100, 103, 100, 101, 0⟩]

/-- The scenario rules with the `direction` key absent. -/
def noDirRules : StrategyRules :=
  { scenarioRules with direction := none }

/-! ## Bookkeeping lemmas about single operations -/

theorem close_position_equity (st : EngineState) (t : Int) (p : ℚ) :
    (close_position st t p).equity_curve = st.equity_curve := by
  cases h : st.current_position <;> simp [close_position, h]

theorem close_position_position (st : EngineState) (t : Int) (p : ℚ) :
    (close_position st t p).current_position = none := by
  cases h : st.current_position <;> simp [close_position, h]

theorem close_position_initial (st : EngineState) (t : Int) (p : ℚ) :
    (close_position st t p).initial_capital = st.initial_capital := by
  cases h : st.current_position <;> simp [close_position, h]

theorem append_equity_fields (st : EngineState) (c : Candle) :
    (append_equity st c).current_position = st.current_position ∧
    (append_equity st c).trades = st.trades ∧
    (append_equity st c).capital = st.capital ∧
    (append_equity st c).initial_capital = st.initial_capital ∧
    (append_equity st c).equity_curve.length = st.equity_curve.length + 1 := by
  simp [append_equity]

/-- Each loop step appends exactly one equity snapshot unless it takes a
closing branch, in which case the `continue` of the source skips the
append. -/
theorem stepCandle_equity_len (cfg : RunConfig) (st : EngineState) (c : Candle)
    (w : List Candle) :
    (stepCandle cfg st c w).equity_curve.length
      + (if stepCloses cfg st c w then 1 else 0)
      = st.equity_curve.length + 1 := by
  cases h : st.current_position <;>
    simp only [stepCandle, stepCloses, h] <;>
    split_ifs <;>
    simp_all [close_position_equity, append_equity, open_position]

/-- A loop step leaves the trade history and the open position unchanged
except that a closing step moves the position into the history and an
opening step creates the position. -/
theorem stepCandle_trades_pos (cfg : RunConfig) (st : EngineState) (c : Candle)
    (w : List Candle) :
    (stepCandle cfg st c w).trades.length + posCount (stepCandle cfg st c w)
      = st.trades.length + posCount st
        + (if stepOpens cfg st c w then 1 else 0) := by
  cases h : st.current_position <;>
    simp only [stepCandle, stepOpens, h] <;>
    split_ifs <;>
    simp_all [close_position, append_equity, open_position, posCount]

theorem stepCandle_initial (cfg : RunConfig) (st : EngineState) (c : Candle)
    (w : List Candle) :
    (stepCandle cfg st c w).initial_capital = st.initial_capital := by
  cases h : st.current_position <;>
    simp only [stepCandle, h] <;>
    split_ifs <;>
    simp [close_position_initial, append_equity, open_position]

/-- The realized-capital invariant: capital equals the initial capital plus
the profits of all closed trades. -/
def capitalInv (st : EngineState) : Prop :=
  st.capital = st.initial_capital + ((st.trades.map Trade.profit).sum)

theorem close_position_inv (st : EngineState) (t : Int) (p : ℚ)
    (h : capitalInv st) : capitalInv (close_position st t p) := by
  unfold capitalInv at *
  cases hp : st.current_position <;>
    simp [close_position, hp, h, close_position_initial] <;> ring

theorem stepCandle_inv (cfg : RunConfig) (st : EngineState) (c : Candle)
    (w : List Candle) (h : capitalInv st) : capitalInv (stepCandle cfg st c w) := by
  have happ : ∀ st2 : EngineState, capitalInv st2 → capitalInv (append_equity st2 c) := by
    intro st2 h2; unfold capitalInv at *; simpa [append_equity] using h2
  cases hp : st.current_position <;>
    simp only [stepCandle, hp] <;>
    split_ifs <;>
    first
      | exact close_position_inv st _ _ h
      | exact happ _ h

/-! ## Loop-level invariants -/

/-- Along the loop, equity snapshots and skipped (closing) steps together
account for exactly one unit per iterated index. -/
theorem loop_equity_len (cfg : RunConfig) (data : List Candle) (is : List Nat) :
    ∀ st : EngineState,
      (is.foldl (stepAt cfg data) st).equity_curve.length
        + loopCloses cfg data st is
        = st.equity_curve.length + is.length := by
  induction is with
  | nil => intro st; simp [loopCloses]
  | cons i is ih =>
    intro st
    have hs := stepCandle_equity_len cfg st (data.getD i default) (windowAt data i)
    have ih2 := ih (stepAt cfg data st i)
    simp only [List.foldl_cons, loopCloses, List.length_cons]
    simp only [stepAt] at ih2 hs ⊢
    omega

/-- Along the loop, trades plus the open position account exactly for the
opening steps. -/
theorem loop_trades_pos (cfg : RunConfig) (data : List Candle) (is : List Nat) :
    ∀ st : EngineState,
      (is.foldl (stepAt cfg data) st).trades.length
          + posCount (is.foldl (stepAt cfg data) st)
        = st.trades.length + posCount st + loopOpens cfg data st is := by
  induction is with
  | nil => intro st; simp [loopOpens]
  | cons i is ih =>
    intro st
    have hs := stepCandle_trades_pos cfg st (data.getD i default) (windowAt data i)
    have ih2 := ih (stepAt cfg data st i)
    simp only [List.foldl_cons, loopOpens]
    simp only [stepAt] at ih2 hs ⊢
    omega

theorem loop_inv (cfg : RunConfig) (data : List Candle) (is : List Nat) :
    ∀ st : EngineState, capitalInv st →
      capitalInv (is.foldl (stepAt cfg data) st) := by
  induction is with
  | nil => intro st h; simpa using h
  | cons i is ih =>
    intro st h
    exact ih _ (stepCandle_inv cfg st (data.getD i default) (windowAt data i) h)

theorem loop_initial (cfg : RunConfig) (data : List Candle) (is : List Nat) :
    ∀ st : EngineState,
      (is.foldl (stepAt cfg data) st).initial_capital = st.initial_capital := by
  induction is with
  | nil => intro st; simp
  | cons i is ih =>
    intro st
    rw [List.foldl_cons, ih]
    exact stepCandle_initial cfg st (data.getD i default) (windowAt data i)

/-! ## Lemmas about the forced closure -/

theorem finalClose_equity (data : List Candle) (st : EngineState) :
    (finalClose data st).equity_curve = st.equity_curve := by
  cases h1 : st.current_position <;> cases h2 : data.getLast? <;>
    simp [finalClose, h1, h2, close_position_equity]

theorem finalClose_initial (data : List Candle) (st : EngineState) :
    (finalClose data st).initial_capital = st.initial_capital := by
  cases h1 : st.current_position <;> cases h2 : data.getLast? <;>
    simp [finalClose, h1, h2, close_position_initial]

theorem finalClose_inv (data : List Candle) (st : EngineState)
    (h : capitalInv st) : capitalInv (finalClose data st) := by
  cases h1 : st.current_position <;> cases h2 : data.getLast? <;>
    simp only [finalClose, h1, h2] <;>
    first
      | exact h
      | exact close_position_inv st _ _ h

/-- When the data is nonempty, or no position is open, the forced closure
leaves no open position and books exactly the still-open position. -/
theorem finalClose_trades (data : List Candle) (st : EngineState)
    (h : data = [] → st.current_position = none) :
    (finalClose data st).current_position = none ∧
    (finalClose data st).trades.length = st.trades.length + posCount st := by
  cases h1 : st.current_position with
  | none => cases h2 : data.getLast? <;> simp [finalClose, h1, h2, posCount]
  | some pos =>
    have hd : data ≠ [] := by
      intro he
      rw [h he] at h1
      exact Option.noConfusion h1
    obtain ⟨last, h2⟩ : ∃ l, data.getLast? = some l := by
      cases h2 : data.getLast? with
      | some l => exact ⟨l, rfl⟩
      | none => exact absurd (List.getLast?_eq_none_iff.mp h2) hd
    simp [finalClose, h1, h2, close_position, posCount]

/-- Number of closing steps taken during a whole run. -/
def runCloses (initial_capital : ℚ) (data : List Candle) (rules : StrategyRules) : Nat :=
  loopCloses rules.toConfig data (resetState initial_capital) (loopIndices data.length)

/-- A two-candle frame whose rows arrive in reversed timestamp order. -/
def badOrderRows : List Candle :=
  [⟨2, 0, 0, 0, 0, 0⟩, ⟨1, 0, 0, 0, 0, 0⟩]

/-! ## The claims -/

/-- Claim C1 is false as stated: at capital 100 with requested risk 2%
(above the 1% hard cap), `calculate_position_size` returns the minimum
position size 10, which differs from and exceeds capital times the hard
cap (1). -/
theorem position_size_cap_counterexample :
    calculate_position_size 100 (some (2 / 100)) = 10 ∧
    ¬ calculate_position_size 100 (some (2 / 100)) = 100 * MAX_RISK_PERCENT ∧
    ¬ calculate_position_size 100 (some (2 / 100)) ≤ 100 * MAX_RISK_PERCENT := by
  refine ⟨?_, ?_, ?_⟩ <;>
    norm_num [calculate_position_size, MAX_RISK_PERCENT, MIN_POSITION_SIZE,
      min_def, max_def]

/-- Claim C1, amended: for every capital > 0 and every requested risk
percent strictly above the hard cap, `calculate_position_size` clamps the
requested percent to the cap, multiplies by capital, and floors the result
at the minimum position size, returning exactly
`max (capital * MAX_RISK_PERCENT) MIN_POSITION_SIZE`. -/
theorem position_size_clamps_to_cap (capital r : ℚ) (_hc : 0 < capital)
    (hr : MAX_RISK_PERCENT < r) :
    calculate_position_size capital (some r)
      = max (capital * MAX_RISK_PERCENT) MIN_POSITION_SIZE := by
  simp only [calculate_position_size, Option.getD_some]
  rw [min_eq_right hr.le]

/-- Witness for the amended claim C1 at capital 2000 and requested risk 2%. -/
theorem position_size_clamps_to_cap_witness :
    calculate_position_size 2000 (some (2 / 100))
      = max (2000 * MAX_RISK_PERCENT) MIN_POSITION_SIZE :=
  position_size_clamps_to_cap 2000 (2 / 100) (by norm_num)
    (by norm_num [MAX_RISK_PERCENT])

/-- Claim C2 is false as stated: a series whose timestamps are strictly
decreasing is not rejected by `load_data`; the rows are sorted by timestamp
and fully ingested. -/
theorem load_data_counterexample :
    load_data required_columns badOrderRows
      = some [⟨1, 0, 0, 0, 0, 0⟩, ⟨2, 0, 0, 0, 0, 0⟩] ∧
    ¬ load_data required_columns badOrderRows = none := by
  constructor <;> decide

/-- Claim C2, amended: `load_data` fails only when a required column is
missing; with all required columns present it always succeeds, ingesting
every row, reordered into timestamp order. -/
theorem load_data_sorts (columns : List String) (rows : List Candle)
    (h : required_columns.all (fun c => columns.contains c) = true) :
    load_data columns rows = some (List.insertionSort tsLE rows) ∧
    (List.insertionSort tsLE rows).length = rows.length ∧
    List.Sorted tsLE (List.insertionSort tsLE rows) := by
  refine ⟨?_, List.length_insertionSort tsLE rows, List.sorted_insertionSort tsLE rows⟩
  unfold load_data
  rw [if_pos h]

/-- Witness for the amended claim C2 on the reversed two-row frame. -/
theorem load_data_sorts_witness :
    load_data required_columns badOrderRows
        = some (List.insertionSort tsLE badOrderRows) ∧
    (List.insertionSort tsLE badOrderRows).length = badOrderRows.length ∧
    List.Sorted tsLE (List.insertionSort tsLE badOrderRows) :=
  load_data_sorts required_columns badOrderRows (by decide)

/-- Claim C3 names a real defect of the code: in the SHORT run over
`shortRunData`, candle 2 has high 110 at or above the short stop level
101 = 100 * (1 + 1/100), yet the engine never evaluates the stop for a
short position (the source guards both intrabar checks with
`if direction == 'long'`), keeps the position open, and force-closes it at
the final close 105 with profit -50 instead of closing at 101. -/
theorem short_stop_loss_ignored :
    (shortRunData.getD 2 default).high ≥ 100 * (1 + 1 / 100) ∧
    (runState 10000 shortRunData shortRules).trades.map
        (fun t => (t.entry_price, t.exit_price, t.profit))
      = [(100, some 105, -50)] ∧
    ¬ (runState 10000 shortRunData shortRules).trades.map
        (fun t => t.exit_price) = [some 101] := by
  refine ⟨?_, ?_, ?_⟩ <;>
    simp [runState, runLoop, loopIndices, stepAt, stepCandle, windowAt,
      resetState, finalClose, open_position, close_position, append_equity,
      Trade.new, Trade.close, shortRunData, shortRules, scenarioRules,
      alwaysCond, neverCond, StrategyRules.toConfig, List.range'] <;>
    norm_num

/-- Claim C4 is false as stated: in the LONG run over `stopRunData` the
loop simulates two candles, but the stop-loss close at the second simulated
candle executes `continue` before the equity append, so only one snapshot
is appended to the initial one-element curve. -/
theorem equity_curve_counterexample :
    (runState 10000 stopRunData scenarioRules).equity_curve = [10000, 10000] ∧
    (loopIndices stopRunData.length).length = 2 ∧
    ¬ (runState 10000 stopRunData scenarioRules).equity_curve.length
        = (resetState 10000).equity_curve.length
          + (loopIndices stopRunData.length).length := by
  refine ⟨?_, ?_, ?_⟩ <;>
    simp [runState, runLoop, loopIndices, stepAt, stepCandle, windowAt,
      resetState, finalClose, open_position, close_position, append_equity,
      Trade.new, Trade.close, stopRunData, scenarioRules,
      alwaysCond, neverCond, StrategyRules.toConfig, List.range'] <;>
    norm_num

/-- Claim C4, amended: each simulated candle appends exactly one
mark-to-market snapshot unless a position is closed at that candle, in
which case nothing is appended; so the final curve length plus the number
of closing steps equals one (the seeded initial capital) plus the number of
simulated candles. -/
theorem equity_curve_length (init : ℚ) (data : List Candle) (rules : StrategyRules) :
    (runState init data rules).equity_curve.length + runCloses init data rules
      = 1 + (loopIndices data.length).length := by
  have h := loop_equity_len rules.toConfig data (loopIndices data.length)
    (resetState init)
  unfold runState runCloses runLoop
  rw [finalClose_equity]
  have hr : (resetState init).equity_curve.length = 1 := rfl
  omega

/-- Claim C5 is false as stated: running the engine with rules that lack
the `direction` key is not rejected; the run completes normally and even
executes a trade. -/
theorem missing_direction_counterexample :
    (execute_strategy 10000 scenarioData noDirRules).isOk = true ∧
    (runState 10000 scenarioData noDirRules).trades.length = 1 := by
  refine ⟨?_, ?_⟩ <;>
    simp [execute_strategy, calculate_results, runState, runLoop,
      loopIndices, stepAt, stepCandle, windowAt, resetState, finalClose,
      open_position, close_position, append_equity, Trade.new, Trade.close,
      scenarioData, noDirRules, scenarioRules, alwaysCond, neverCond,
      StrategyRules.toConfig, List.range', Except.isOk, Except.toBool]

/-- Claim C5, amended: a missing `direction` field is never a fatal
configuration error; `execute_strategy` substitutes the default `long` and
the run is identical to one whose rules carry `direction = long`
explicitly. -/
theorem missing_direction_defaults_long (init : ℚ) (data : List Candle)
    (rules : StrategyRules) :
    execute_strategy init data { rules with direction := none }
      = execute_strategy init data { rules with direction := some "long" } := by
  unfold execute_strategy runState runLoop
  rw [show ({ rules with direction := none } : StrategyRules).toConfig
        = ({ rules with direction := some "long" } : StrategyRules).toConfig from rfl]

/-- Claim C6: while a position is open, a loop step never installs a new
position; it either keeps exactly the same open position or closes it.
Together with the engine holding at most one `current_position` (an
optional value), at most one position is open at every simulated step, and
`_open_position` is reached only from the no-position branch. -/
theorem single_position_invariant (cfg : RunConfig) (st : EngineState)
    (c : Candle) (w : List Candle) (p : Trade)
    (h : st.current_position = some p) :
    (stepCandle cfg st c w).current_position = none ∨
    (stepCandle cfg st c w).current_position = some p := by
  simp only [stepCandle, h]
  split_ifs
  · exact Or.inl (close_position_position st _ _)
  · exact Or.inl (close_position_position st _ _)
  · exact Or.inl (close_position_position st _ _)
  · exact Or.inr (by simp [append_equity, h])

/-- Witness for claim C6: a concrete step taken from a state holding an
open LONG trade at entry 100. -/
theorem single_position_invariant_witness :
    (stepCandle scenarioRules.toConfig
        (open_position (resetState 10000) 0 100 10 "long")
        ⟨1, 100, 102, 90, 92, 0⟩ []).current_position = none ∨
    (stepCandle scenarioRules.toConfig
        (open_position (resetState 10000) 0 100 10 "long")
        ⟨1, 100, 102, 90, 92, 0⟩ []).current_position
      = some (Trade.new 0 100 10 "long") :=
  single_position_invariant scenarioRules.toConfig
    (open_position (resetState 10000) 0 100 10 "long")
    ⟨1, 100, 102, 90, 92, 0⟩ [] (Trade.new 0 100 10 "long")
    (by simp [open_position, resetState, Trade.new]; norm_num)

/-- Claim C7: every run ends with no open position (a still-open position
is force-closed after the loop), and the final trade history holds exactly
one trade per position opened during the run. -/
theorem run_closes_all_positions (init : ℚ) (data : List Candle)
    (rules : StrategyRules) :
    (runState init data rules).current_position = none ∧
    (runState init data rules).trades.length = runOpens init data rules := by
  have hl := loop_trades_pos rules.toConfig data (loopIndices data.length)
    (resetState init)
  have hempty : data = [] →
      (runLoop rules.toConfig data (resetState init)).current_position = none := by
    intro he
    subst he
    simp [runLoop, loopIndices, resetState]
  have hfc := finalClose_trades data (runLoop rules.toConfig data (resetState init))
    hempty
  unfold runState
  refine ⟨hfc.1, ?_⟩
  rw [hfc.2]
  unfold runLoop at hl ⊢
  rw [hl]
  simp [resetState, posCount, runOpens]

/-- Claim C8 is false as stated: on the spec scenario exactly one trade is
executed, and every asserted fact about it fails — the engine does not
open at t0, does not open at price 100, does not exit at the stop level
99, and the profit is not negative.  The loop `range(1, len(data))` makes
t1 the only decision point, the entry executes at the t1 close of 92, and
the forced end-of-series closure exits at 92 the same candle. -/
theorem scenario_counterexample :
    (runState 10000 scenarioData scenarioRules).trades.length = 1 ∧
    ¬ (runState 10000 scenarioData scenarioRules).trades.map
        (fun t => t.entry_time) = [0] ∧
    ¬ (runState 10000 scenarioData scenarioRules).trades.map
        (fun t => t.entry_price) = [100] ∧
    ¬ (runState 10000 scenarioData scenarioRules).trades.map
        (fun t => t.exit_price) = [some 99] ∧
    (runState 10000 scenarioData scenarioRules).trades.map
        (fun t => decide (t.profit < 0)) = [false] := by
  refine ⟨?_, ?_, ?_, ?_, ?_⟩ <;>
    simp [runState, runLoop, loopIndices, stepAt, stepCandle, windowAt,
      resetState, finalClose, open_position, close_position, append_equity,
      Trade.new, Trade.close, scenarioData, scenarioRules, alwaysCond,
      neverCond, StrategyRules.toConfig, List.range']

/-- Claim C8, amended: on the scenario series the per-candle loop begins at
the second candle (index 1), so t0 is never a decision point; the
always-true entry opens a LONG at the t1 close of 92 (`_open_position`
receives `current_candle['close']`), no intrabar level is checked on the
opening candle, and the forced end-of-series closure exits at 92 at t1,
for a profit of exactly 0 — the capital is unchanged at 10000 and the
equity curve holds the seeded initial capital plus the one snapshot of the
opening candle. -/
theorem scenario_run_result :
    (runState 10000 scenarioData scenarioRules).trades.map
        (fun t => (t.entry_time, t.entry_price, t.exit_time, t.exit_price, t.profit))
      = [(1, 92, some 1, some 92, 0)] ∧
    (runState 10000 scenarioData scenarioRules).capital = 10000 ∧
    (runState 10000 scenarioData scenarioRules).equity_curve = [10000, 10000] ∧
    (mkResults (runState 10000 scenarioData scenarioRules)).total_profit = 0 := by
  refine ⟨?_, ?_, ?_, ?_⟩ <;>
    simp [runState, runLoop, loopIndices, stepAt, stepCandle, windowAt,
      resetState, finalClose, open_position, close_position, append_equity,
      Trade.new, Trade.close, scenarioData, scenarioRules, alwaysCond,
      neverCond, StrategyRules.toConfig, List.range', mkResults]

/-- Claim C9: the profit factor of a report equals the absolute value of
average win over average loss whenever the average loss is nonzero, and is
exactly 0 when the average loss is 0 — in particular when there are no
losing trades; it is a total rational-valued computation, so no division
fault or undefined value can arise. -/
theorem profit_factor_total (init : ℚ) (data : List Candle)
    (rules : StrategyRules) :
    ((mkResults (runState init data rules)).avg_loss ≠ 0 →
      (mkResults (runState init data rules)).profit_factor
        = |(mkResults (runState init data rules)).avg_win
            / (mkResults (runState init data rules)).avg_loss|) ∧
    ((mkResults (runState init data rules)).avg_loss = 0 →
      (mkResults (runState init data rules)).profit_factor = 0) ∧
    (losingOf (runState init data rules).trades = [] →
      (mkResults (runState init data rules)).profit_factor = 0) := by
  refine ⟨?_, ?_, ?_⟩ <;> intro h
  · simp only [mkResults] at h ⊢
    rw [if_pos h]
  · simp only [mkResults] at h ⊢
    rw [if_neg (by simpa using h)]
  · simp only [mkResults]
    rw [if_neg (by simp [h, avgProfit])]

/-- Witness for claim C9: the stop-loss run has one losing trade
(average loss -10, nonzero), the take-profit run has one winning trade and
no losing trade (average loss 0, profit factor 0). -/
theorem profit_factor_total_witness :
    (mkResults (runState 10000 stopRunData scenarioRules)).profit_factor
      = |(mkResults (runState 10000 stopRunData scenarioRules)).avg_win
          / (mkResults (runState 10000 stopRunData scenarioRules)).avg_loss| ∧
    (mkResults (runState 10000 winRunData scenarioRules)).profit_factor = 0 :=
  ⟨(profit_factor_total 10000 stopRunData scenarioRules).1
      (by simp [runState, runLoop, loopIndices, stepAt, stepCandle, windowAt,
            resetState, finalClose, open_position, close_position, append_equity,
            Trade.new, Trade.close, stopRunData, scenarioRules, alwaysCond,
            neverCond, StrategyRules.toConfig, List.range', mkResults,
            avgProfit, losingOf, winningOf] <;> norm_num),
   (profit_factor_total 10000 winRunData scenarioRules).2.2
      (by simp [runState, runLoop, loopIndices, stepAt, stepCandle, windowAt,
            resetState, finalClose, open_position, close_position, append_equity,
            Trade.new, Trade.close, winRunData, scenarioRules, alwaysCond,
            neverCond, StrategyRules.toConfig, List.range', losingOf] <;> norm_num)⟩

/-- Claim C10: at every point of the loop the realized capital equals the
initial capital plus the profits of the trades closed so far, and in the
final report the capital identities follow: final capital minus initial
capital is the total profit, and the total return percent is total profit
over initial capital times 100. -/
theorem capital_accounting (init : ℚ) (data : List Candle)
    (rules : StrategyRules) :
    (∀ is : List Nat,
      (is.foldl (stepAt rules.toConfig data) (resetState init)).capital
        = init
          + (((is.foldl (stepAt rules.toConfig data) (resetState init)).trades.map
              Trade.profit).sum)) ∧
    (runState init data rules).capital
      = init + (((runState init data rules).trades.map Trade.profit).sum) ∧
    (mkResults (runState init data rules)).final_capital
        - (mkResults (runState init data rules)).initial_capital
      = (mkResults (runState init data rules)).total_profit ∧
    (mkResults (runState init data rules)).total_return_percent
      = (mkResults (runState init data rules)).total_profit
          / (mkResults (runState init data rules)).initial_capital * 100 := by
  have hreset : capitalInv (resetState init) := by simp [capitalInv, resetState]
  have hloop : ∀ is : List Nat,
      capitalInv (is.foldl (stepAt rules.toConfig data) (resetState init)) :=
    fun is => loop_inv rules.toConfig data is (resetState init) hreset
  have hloopinit : ∀ is : List Nat,
      (is.foldl (stepAt rules.toConfig data) (resetState init)).initial_capital
        = init :=
    fun is => loop_initial rules.toConfig data is (resetState init)
  have hrun : capitalInv (runState init data rules) :=
    finalClose_inv data _ (hloop (loopIndices data.length))
  have hruninit : (runState init data rules).initial_capital = init := by
    unfold runState
    rw [finalClose_initial]
    exact hloopinit (loopIndices data.length)
  have hcap : (runState init data rules).capital
      = init + (((runState init data rules).trades.map Trade.profit).sum) := by
    have := hrun
    unfold capitalInv at this
    rw [hruninit] at this
    exact this
  refine ⟨?_, hcap, ?_, ?_⟩
  · intro is
    have h2 := hloop is
    unfold capitalInv at h2
    rw [hloopinit is] at h2
    exact h2
  · simp only [mkResults]
    rw [hruninit, hcap]
    ring
  · simp only [mkResults]
    rw [hruninit, hcap]
    ring_nf

end JT345
